import Mathlib

/-!
Verification development for the Kalakobana game server (`src/server.js`).

The JavaScript source is shallowly embedded: JS objects become structures,
`Map`s become association lists with `Map.set`/`Map.get`/`Map.delete`
semantics, socket handlers become pure functions from room state (plus the
event payload and the sender's bound player id) to room state, and the
ad-hoc `setTimeout` callbacks become explicit functions that may be applied
at any later state.  `Math.floor(Math.random() * n)` is modelled by an
oracle natural number reduced modulo `n`.
-/

/- ===== String helpers modelling the JavaScript string methods ===== -/

/-- Whitespace test used to model `String.prototype.trim`. -/
def isWsChar (c : Char) : Bool :=
  c == ' ' || c == '\t' || c == '\n' || c == '\r'

/-- Drop leading and trailing whitespace from a character list. -/
def trimChars (l : List Char) : List Char :=
  ((l.dropWhile isWsChar).reverse.dropWhile isWsChar).reverse

/-- Model of the JavaScript `s.trim()`. -/
def jsTrim (s : String) : String := String.mk (trimChars s.data)

/-- Model of `s.toLowerCase()` (ASCII case folding; the Georgian mkhedruli
letters used by the game are caseless, so they are fixed points both here
and in JavaScript). -/
def jsToLower (s : String) : String := String.mk (s.data.map Char.toLower)

/-- `charsStart s pre` models `s.startsWith(pre)` on character lists. -/
def charsStart : List Char → List Char → Bool
  | _, [] => true
  | [], _ :: _ => false
  | c :: cs, d :: ds => c == d && charsStart cs ds

/-- Model of `s.startsWith(pre)`. -/
def jsStartsWith (s pre : String) : Bool := charsStart s.data pre.data

/-- The normalization `(x || '').trim().toLowerCase()` applied to answers
in `calculateScores` (server.js line 204). -/
def normAnswer (s : String) : String := jsToLower (jsTrim s)

/- ===== Association-list maps with JavaScript `Map` semantics ===== -/

/-- `Map.get k` / `obj[k]`. -/
def mapLookup {α : Type} (m : List (String × α)) (k : String) : Option α :=
  (m.find? (fun e => e.1 == k)).map (fun e => e.2)

/-- `Map.set k v` / `obj[k] = v`: replace the existing entry in place, else
append. -/
def mapSet {α : Type} : List (String × α) → String → α → List (String × α)
  | [], k, v => [(k, v)]
  | e :: es, k, v => if e.1 == k then (k, v) :: es else e :: mapSet es k v

/-- `Map.delete k`: drop the entry for `k`. -/
def mapDelete {α : Type} (m : List (String × α)) (k : String) : List (String × α) :=
  m.filter (fun e => !(e.1 == k))

/-- `player.answers[cat] || ''` (server.js lines 204, 215, 223). -/
def getOrEmpty (m : List (String × String)) (k : String) : String :=
  (mapLookup m k).getD ""

/- ===== Data model (server.js lines 44-117) ===== -/

/-- The 33-letter Georgian alphabet (server.js lines 45-48). -/
def GEORGIAN_ALPHABET : List String :=
  ["ა", "ბ", "გ", "დ", "ე", "ვ", "ზ", "თ", "ი", "კ", "ლ", "მ", "ნ", "ო", "პ",
   "ჟ", "რ", "ს", "ტ", "უ", "ფ", "ქ", "ღ", "ყ", "შ", "ჩ", "ც", "ძ", "წ", "ჭ", "ხ", "ჯ", "ჰ"]

/-- Bonus category pool (server.js line 50). -/
def BONUS_CATEGORIES : List String :=
  ["ბრენდი", "ფერი", "ნივთი", "მუსიკა", "ფილმი", "საჭმელი", "სპორტი", "პროფესია"]

/-- Default category list (server.js line 52). -/
def DEFAULT_CATEGORIES : List String :=
  ["ქალაქი", "სოფელი", "სახელი", "გვარი", "ცხოველი", "ფრინველი", "მცენარე"]

/-- One entry of `player.categoryScores` (server.js line 223): the scoring
pass never sets `invalidatedBy`; the invalidation handler toggles it. -/
structure CategoryScore where
  points : Int
  isValid : Bool
  answer : String
  invalidatedBy : Option String
deriving DecidableEq, Repr

/-- A player record (server.js lines 100-113 / 474-487).  The transport
fields `socketId` and `sessionId` belong to the connection layer and are
not part of the room-state model. -/
structure Player where
  id : String
  nick : String
  avatarSeed : String
  isHost : Bool
  isReady : Bool
  isConnected : Bool
  answers : List (String × String)
  categoryScores : List (String × CategoryScore)
  roundScore : Int
  totalScore : Int
  hasSubmitted : Bool
deriving DecidableEq, Repr

/-- Room phases (server.js line 88 plus the `ended` phase set at line 766). -/
inductive Phase
  | lobby
  | sticks
  | playing
  | stopped
  | results
  | ended
deriving DecidableEq, Repr

/-- `room.gameState` (server.js lines 87-97).  `timerEnabled` is the spec's
`stopTimerArmed`; `usedLetters` is a JS `Set` kept as an insertion-ordered
duplicate-free list. -/
structure GameState where
  phase : Phase
  currentRound : Nat
  currentLetter : String
  usedLetters : List String
  activeCategories : List (String × String)
  stoppedBy : Option String
  timerEnabled : Bool
  allAnswersSubmitted : Bool
deriving DecidableEq, Repr

/-- `room.settings` (server.js lines 81-86). -/
structure Settings where
  minTime : Nat
  maxRounds : Nat
  useBonus : Bool
  categories : List String
deriving DecidableEq, Repr

/-- A room (server.js lines 77-98).  `players` is the JS `Map` keyed by
player id, kept in insertion order. -/
structure Room where
  code : String
  hostId : String
  players : List Player
  settings : Settings
  gameState : GameState
deriving DecidableEq, Repr

/-- `room.players.get(pid)`. -/
def getPlayer (room : Room) (pid : String) : Option Player :=
  room.players.find? (fun p => p.id == pid)

/-- In-place mutation of the player object stored under `pid`. -/
def updatePlayer (room : Room) (pid : String) (f : Player → Player) : Room :=
  { room with players := room.players.map (fun p => if p.id == pid then f p else p) }

/- ===== Scoring pass (server.js lines 194-229, `calculateScores`) ===== -/

/-- The per-category score computed for player `p` (server.js lines 203-223):
normalize the answer, require it non-empty and starting with the lowercased
current letter, 20 points unless some other player has the identical
normalized answer, in which case 10. -/
def scoreFor (players : List Player) (letter : String) (p : Player) (cat : String) :
    CategoryScore :=
  let raw := getOrEmpty p.answers cat
  let answer := normAnswer raw
  if !answer.data.isEmpty && jsStartsWith answer (jsToLower letter) then
    let dup := players.any (fun q =>
      q.id != p.id && normAnswer (getOrEmpty q.answers cat) == answer)
    { points := if dup then 10 else 20, isValid := true, answer := raw, invalidatedBy := none }
  else
    { points := 0, isValid := false, answer := raw, invalidatedBy := none }

/-- The whole per-player update of the scoring pass (server.js lines 199-227). -/
def scorePlayer (players : List Player) (letter : String) (cats : List String)
    (p : Player) : Player :=
  let cs := cats.map (fun c => (c, scoreFor players letter p c))
  let rs := (cs.map (fun e => e.2.points)).sum
  { p with categoryScores := cs, roundScore := rs, totalScore := p.totalScore + rs }

/-- `calculateScores(room)` (server.js lines 195-229): every player is scored
against the snapshot of all players' answers; `Object.keys(activeCategories)`
is the key list in insertion order. -/
def calculateScores (room : Room) : Room :=
  { room with players := room.players.map (scorePlayer room.players
      room.gameState.currentLetter (room.gameState.activeCategories.map (fun e => e.1))) }

/- ===== Small string facts ===== -/

theorem str_eq_empty_iff (s : String) : s = "" ↔ s.data = [] := by
  cases s with
  | mk l =>
    constructor
    · intro h
      have hd : (String.mk l).data = ("" : String).data := by rw [h]
      simpa using hd
    · intro h
      subst h
      rfl

theorem data_isEmpty_false_of_ne (a : String) (h : a ≠ "") : a.data.isEmpty = false := by
  cases hd : a.data with
  | nil => exact absurd ((str_eq_empty_iff a).2 hd) h
  | cons x xs => rfl

theorem data_isEmpty_true_of_eq (a : String) (h : a = "") : a.data.isEmpty = true := by
  subst h
  rfl

/- ===== C1: the scoring pass ===== -/

/-- The spec's description of the per-category score, stated directly from
the spec sentences (spec.md section 4.2, scoring pass steps 1-4). -/
def C1CatOk (players : List Player) (letter : String) (p : Player) (c : String)
    (sc : CategoryScore) : Prop :=
  ((normAnswer (getOrEmpty p.answers c) = "" ∨
      jsStartsWith (normAnswer (getOrEmpty p.answers c)) (jsToLower letter) = false) →
    sc.points = 0 ∧ sc.isValid = false) ∧
  (normAnswer (getOrEmpty p.answers c) ≠ "" →
    jsStartsWith (normAnswer (getOrEmpty p.answers c)) (jsToLower letter) = true →
    sc.isValid = true ∧
    ((∃ q ∈ players, q.id ≠ p.id ∧
        normAnswer (getOrEmpty q.answers c) = normAnswer (getOrEmpty p.answers c)) →
      sc.points = 10) ∧
    (¬ (∃ q ∈ players, q.id ≠ p.id ∧
        normAnswer (getOrEmpty q.answers c) = normAnswer (getOrEmpty p.answers c)) →
      sc.points = 20))

/-- Claim C1, stated over the embedded scoring pass. -/
def C1Concl (room : Room) (p : Player) : Prop :=
  scorePlayer room.players room.gameState.currentLetter
      (room.gameState.activeCategories.map (fun e => e.1)) p ∈ (calculateScores room).players ∧
  (scorePlayer room.players room.gameState.currentLetter
      (room.gameState.activeCategories.map (fun e => e.1)) p).categoryScores.map (fun e => e.1)
    = room.gameState.activeCategories.map (fun e => e.1) ∧
  (∀ e ∈ (scorePlayer room.players room.gameState.currentLetter
      (room.gameState.activeCategories.map (fun e => e.1)) p).categoryScores,
    C1CatOk room.players room.gameState.currentLetter p e.1 e.2) ∧
  (scorePlayer room.players room.gameState.currentLetter
      (room.gameState.activeCategories.map (fun e => e.1)) p).roundScore
    = ((scorePlayer room.players room.gameState.currentLetter
      (room.gameState.activeCategories.map (fun e => e.1)) p).categoryScores.map
        (fun e => e.2.points)).sum ∧
  (scorePlayer room.players room.gameState.currentLetter
      (room.gameState.activeCategories.map (fun e => e.1)) p).totalScore
    = p.totalScore + (scorePlayer room.players room.gameState.currentLetter
      (room.gameState.activeCategories.map (fun e => e.1)) p).roundScore

theorem scoreFor_ok (players : List Player) (letter : String) (p : Player) (c : String) :
    C1CatOk players letter p c (scoreFor players letter p c) := by
  constructor
  · intro h
    have hcond : (!(normAnswer (getOrEmpty p.answers c)).data.isEmpty &&
        jsStartsWith (normAnswer (getOrEmpty p.answers c)) (jsToLower letter)) = false := by
      rcases h with h | h
      · simp [data_isEmpty_true_of_eq _ h]
      · simp [h]
    simp [scoreFor, hcond]
  · intro h1 h2
    have hcond : (!(normAnswer (getOrEmpty p.answers c)).data.isEmpty &&
        jsStartsWith (normAnswer (getOrEmpty p.answers c)) (jsToLower letter)) = true := by
      simp [data_isEmpty_false_of_ne _ h1, h2]
    refine ⟨?_, ?_, ?_⟩
    · simp [scoreFor, hcond]
    · intro hex
      have hdup : (players.any (fun q =>
          q.id != p.id && normAnswer (getOrEmpty q.answers c)
            == normAnswer (getOrEmpty p.answers c))) = true := by
        rcases hex with ⟨q, hq, hne, heq⟩
        refine List.any_eq_true.2 ⟨q, hq, ?_⟩
        simp [hne, heq]
      simp [scoreFor, hcond, hdup]
    · intro hnex
      have hdup : (players.any (fun q =>
          q.id != p.id && normAnswer (getOrEmpty q.answers c)
            == normAnswer (getOrEmpty p.answers c))) = false := by
        rw [Bool.eq_false_iff]
        intro hany
        rcases List.any_eq_true.1 hany with ⟨q, hq, hcondq⟩
        simp only [Bool.and_eq_true, bne_iff_ne, beq_iff_eq] at hcondq
        exact hnex ⟨q, hq, hcondq.1, hcondq.2⟩
      simp [scoreFor, hcond, hdup]

/-- C1: in the scoring pass run when a round ends, each player's per-category
points and validity follow the normalize/first-letter/duplicate rule (20
unique, 10 duplicated, 0 invalid), `roundScore` is the sum of the points and
`totalScore` is incremented by `roundScore`. -/
theorem c1_scoring_pass (room : Room) (p : Player) (hp : p ∈ room.players) :
    C1Concl room p := by
  refine ⟨?_, ?_, ?_, rfl, rfl⟩
  · show scorePlayer room.players room.gameState.currentLetter
        (room.gameState.activeCategories.map (fun e => e.1)) p ∈
      room.players.map (scorePlayer room.players room.gameState.currentLetter
        (room.gameState.activeCategories.map (fun e => e.1)))
    exact List.mem_map_of_mem _ hp
  · simp [scorePlayer, List.map_map, Function.comp]
  · intro e he
    simp only [scorePlayer] at he
    rcases List.mem_map.1 he with ⟨c0, _, rfl⟩
    exact scoreFor_ok room.players room.gameState.currentLetter p c0

/- Concrete inputs for the C1 witness: three players, two of whom share the
normalized answer. -/

def c1PlayerA : Player :=
  { id := "pA", nick := "ანა", avatarSeed := "s1", isHost := true, isReady := true,
    isConnected := true, answers := [("cat_0", "ბაქო"), ("cat_1", "ბათუმი")],
    categoryScores := [], roundScore := 0, totalScore := 7, hasSubmitted := true }

def c1PlayerB : Player :=
  { id := "pB", nick := "ბექა", avatarSeed := "s2", isHost := false, isReady := true,
    isConnected := true, answers := [("cat_0", " ბაქო ")],
    categoryScores := [], roundScore := 0, totalScore := 0, hasSubmitted := true }

def c1PlayerC : Player :=
  { id := "pC", nick := "გიო", avatarSeed := "s3", isHost := false, isReady := true,
    isConnected := true, answers := [("cat_0", "თბილისი")],
    categoryScores := [], roundScore := 0, totalScore := 3, hasSubmitted := true }

def c1Room : Room :=
  { code := "AAAAA", hostId := "pA",
    players := [c1PlayerA, c1PlayerB, c1PlayerC],
    settings := { minTime := 0, maxRounds := 1, useBonus := false,
                  categories := ["ქალაქი", "სოფელი"] },
    gameState := { phase := .results, currentRound := 1, currentLetter := "ბ",
                   usedLetters := ["ბ"], activeCategories := [("cat_0", "ქალაქი"), ("cat_1", "სოფელი")],
                   stoppedBy := some "ანა", timerEnabled := true, allAnswersSubmitted := true } }

theorem c1_scoring_pass_witness : c1PlayerA ∈ c1Room.players ∧ C1Concl c1Room c1PlayerA :=
  ⟨by decide, c1_scoring_pass c1Room c1PlayerA (by decide)⟩

/- ===== Socket handlers as pure state transformers ===== -/

/-- Where a server-originated message is sent: `socket.emit` (the originating
connection only) or `io.to(roomCode).emit` (the whole room). -/
inductive EmitTarget
  | senderOnly
  | broadcast
deriving DecidableEq, Repr

/-- Server-originated messages relevant to the modelled handlers. -/
inductive EmitMsg
  | gameError (message : String)
  | roundStopped (stoppedBy : String) (countdown : Nat)
deriving DecidableEq, Repr

structure Emit where
  target : EmitTarget
  msg : EmitMsg
deriving DecidableEq, Repr

/-- `allPlayersReady(room)` (server.js lines 152-160). -/
def allPlayersReady (room : Room) : Bool :=
  room.players.all (fun p => !p.isConnected || p.isReady) && !room.players.isEmpty

/-- `game:start` handler (server.js lines 550-577).  Guards: sender is host,
all connected players ready.  There is no phase guard in the source. -/
def gameStart (room : Room) (senderId : String) : Room :=
  if room.hostId != senderId then room
  else if !allPlayersReady room then room
  else
    { room with
      gameState := { room.gameState with phase := .sticks, currentRound := 0, usedLetters := [] },
      players := room.players.map (fun p =>
        { p with totalScore := 0, roundScore := 0, answers := [] }) }

/-- `selectRandomLetter(room)` (server.js lines 163-170).  The random index
is modelled by the oracle `r` reduced modulo the candidate-list length; the
exhausted branch clears `usedLetters` inside the function, as the source does. -/
def selectRandomLetter (room : Room) (r : Nat) : String × Room :=
  let available := GEORGIAN_ALPHABET.filter (fun l => !(room.gameState.usedLetters.contains l))
  if available.isEmpty then
    (GEORGIAN_ALPHABET.getD (r % GEORGIAN_ALPHABET.length) "",
     { room with gameState := { room.gameState with usedLetters := [] } })
  else
    (available.getD (r % available.length) "", room)

/-- JS `Set.add`: append only when absent. -/
def setAdd (s : List String) (x : String) : List String :=
  if s.contains x then s else s ++ [x]

/-- Immediate effect of the `sticks:draw` handler (server.js lines 580-600):
host-only; selects a letter, stores it in `currentLetter` and adds it to
`usedLetters`.  The phase change to `playing` happens later via `startRound`. -/
def sticksDraw (room : Room) (senderId : String) (r : Nat) : Room :=
  if room.hostId != senderId then room
  else
    let pick := selectRandomLetter room r
    { pick.2 with gameState := { pick.2.gameState with
        currentLetter := pick.1,
        usedLetters := setAdd pick.2.gameState.usedLetters pick.1 } }

/-- `setupCategories(room)` (server.js lines 173-192); `r` is the oracle for
the random bonus pick. -/
def setupCategories (room : Room) (r : Nat) : List (String × String) :=
  let base := room.settings.categories.enum.map (fun e => ("cat_" ++ toString e.1, e.2))
  if room.settings.useBonus then
    base ++ [("bonus", BONUS_CATEGORIES.getD (r % BONUS_CATEGORIES.length) "")]
  else base

/-- `startRound(room)` (server.js lines 602-633), the timer callback run
1500 ms after `sticks:result`.  It mutates the captured room unconditionally. -/
def startRound (room : Room) (bonusR : Nat) : Room :=
  { room with
    gameState := { room.gameState with
      currentRound := room.gameState.currentRound + 1,
      phase := .playing,
      timerEnabled := false,
      stoppedBy := none,
      allAnswersSubmitted := false,
      activeCategories := setupCategories room bonusR },
    players := room.players.map (fun p =>
      { p with answers := [], hasSubmitted := false, roundScore := 0 }) }

/-- The min-time timer callback (server.js lines 627-630): sets
`timerEnabled` unconditionally on whatever state the room is in when it fires. -/
def minTimeCb (room : Room) : Room :=
  { room with gameState := { room.gameState with timerEnabled := true } }

/-- `answers:submit` handler (server.js lines 646-672): no phase guard; the
sender's answers map is replaced, `hasSubmitted` is set, and when every
connected player has submitted the `allAnswersSubmitted` flag is raised. -/
def answersSubmit (room : Room) (senderId : String) (answers : List (String × String)) : Room :=
  match getPlayer room senderId with
  | none => room
  | some _ =>
    let room1 := updatePlayer room senderId (fun p =>
      { p with answers := answers, hasSubmitted := true })
    if room1.players.all (fun p => !p.isConnected || p.hasSubmitted) then
      { room1 with gameState := { room1.gameState with allAnswersSubmitted := true } }
    else room1

/-- `round:stop` handler (server.js lines 675-701).  The only phase-guarded
handler: requires `phase = playing`; rejects with a Georgian error when the
min-time timer has not yet enabled stopping. -/
def roundStop (room : Room) (senderId : String) : Room × List Emit :=
  if room.gameState.phase != .playing then (room, [])
  else if !room.gameState.timerEnabled then
    (room, [{ target := .senderOnly, msg := .gameError "დაელოდეთ ტაიმერს" }])
  else
    match getPlayer room senderId with
    | none => (room, [])
    | some player =>
      ({ room with gameState := { room.gameState with
            phase := .stopped, stoppedBy := some player.nick } },
       [{ target := .broadcast, msg := .roundStopped player.nick 5 }])

/-- `endRound(room)` (server.js lines 703-720), the 5-second stop-countdown
callback: flips to `results` and runs the scoring pass, unconditionally. -/
def endRound (room : Room) : Room :=
  calculateScores { room with gameState := { room.gameState with phase := .results } }

/-- The invalidate branch of `answer:invalidate` (server.js lines 741-744):
mark the cached entry and subtract the cached `points` from both scores. -/
def invalidateMut (category senderId : String) (score : CategoryScore) (p : Player) : Player :=
  { p with
    categoryScores := mapSet p.categoryScores category
      { score with invalidatedBy := some senderId },
    roundScore := p.roundScore - score.points,
    totalScore := p.totalScore - score.points }

/-- The re-validate branch of `answer:invalidate` (server.js lines 736-739):
clear the mark and add the cached `points` back to both scores. -/
def revalidateMut (category : String) (score : CategoryScore) (p : Player) : Player :=
  { p with
    categoryScores := mapSet p.categoryScores category { score with invalidatedBy := none },
    roundScore := p.roundScore + score.points,
    totalScore := p.totalScore + score.points }

/-- `answer:invalidate` handler (server.js lines 723-755): toggles
`invalidatedBy` on the cached entry and adds or subtracts the cached
`points`.  There is no phase guard in the source. -/
def answerInvalidate (room : Room) (senderId targetPlayerId category : String) : Room :=
  match getPlayer room targetPlayerId with
  | none => room
  | some tp =>
    match mapLookup tp.categoryScores category with
    | none => room
    | some score =>
      if score.invalidatedBy.isSome then
        updatePlayer room targetPlayerId (revalidateMut category score)
      else
        updatePlayer room targetPlayerId (invalidateMut category senderId score)

/-- The lobby reset shared by the end-game cooldown callback (server.js
lines 782-795) and `game:returnToLobby` (lines 804-822): both bodies perform
exactly these mutations.  Note that `currentLetter` is not cleared. -/
def lobbyReset (room : Room) : Room :=
  { room with
    gameState := { room.gameState with phase := .lobby, currentRound := 0, usedLetters := [] },
    players := room.players.map (fun p =>
      { p with isReady := p.isHost, totalScore := 0, roundScore := 0, answers := [] }) }

/-- The 10-second end-game cooldown callback (server.js lines 782-795): it
resets the captured room to the lobby unconditionally, with no phase check. -/
def endGameCooldownCb (room : Room) : Room := lobbyReset room

/-- `game:nextRound` handler (server.js lines 758-801): host-only, no phase
guard; ends the game (and schedules the cooldown) after the last round,
otherwise returns to `sticks`. -/
def gameNextRound (room : Room) (senderId : String) : Room :=
  if room.hostId != senderId then room
  else if room.settings.maxRounds ≤ room.gameState.currentRound then
    { room with gameState := { room.gameState with phase := .ended } }
  else
    { room with gameState := { room.gameState with phase := .sticks } }

/-- `game:returnToLobby` handler (server.js lines 804-822): host-only, no
phase guard. -/
def gameReturnToLobby (room : Room) (senderId : String) : Room :=
  if room.hostId != senderId then room else lobbyReset room

/-- `player:ready` handler (server.js lines 518-534). -/
def playerReady (room : Room) (senderId : String) (ready : Bool) : Room :=
  match getPlayer room senderId with
  | none => room
  | some _ => updatePlayer room senderId (fun p => { p with isReady := ready })

/-- A partial settings object, as accepted by `settings:update`. -/
structure SettingsPatch where
  minTime : Option Nat
  maxRounds : Option Nat
  useBonus : Option Bool
  categories : Option (List String)
deriving DecidableEq, Repr

/-- `{...room.settings, ...settings}` (server.js line 543). -/
def applySettingsPatch (s : Settings) (p : SettingsPatch) : Settings :=
  { minTime := p.minTime.getD s.minTime,
    maxRounds := p.maxRounds.getD s.maxRounds,
    useBonus := p.useBonus.getD s.useBonus,
    categories := p.categories.getD s.categories }

/-- `settings:update` handler (server.js lines 537-547): host-only merge. -/
def settingsUpdate (room : Room) (senderId : String) (patch : SettingsPatch) : Room :=
  if room.hostId != senderId then room
  else { room with settings := applySettingsPatch room.settings patch }

/-- A freshly joined (non-host) player (server.js lines 474-487). -/
def freshPlayer (pid nick avatarSeed : String) : Player :=
  { id := pid, nick := nick, avatarSeed := avatarSeed, isHost := false, isReady := false,
    isConnected := true, answers := [], categoryScores := [], roundScore := 0,
    totalScore := 0, hasSubmitted := false }

/-- `room:join` handler, the part that mutates the room (server.js lines
454-515): requires `phase = lobby` and fewer than 8 players. -/
def roomJoin (room : Room) (pid nick avatarSeed : String) : Room :=
  if room.gameState.phase != .lobby then room
  else if 8 ≤ room.players.length then room
  else { room with players := room.players ++ [freshPlayer pid nick avatarSeed] }

/-- `room:leave` handler, the part that mutates the room (server.js lines
825-866): remove the sender, then host succession to the first remaining
player when the host left.  (Registry deletion of an emptied room is a
registry-level effect.) -/
def roomLeave (room : Room) (senderId : String) : Room :=
  let room1 := { room with players := room.players.filter (fun q => !(q.id == senderId)) }
  if room1.hostId == senderId then
    match room1.players with
    | [] => room1
    | h :: t => { room1 with hostId := h.id, players := { h with isHost := true } :: t }
  else room1

/-- `player:kick` handler, the part that mutates the room (server.js lines
869-897): host-only, cannot kick self, target must exist. -/
def playerKick (room : Room) (senderId targetPlayerId : String) : Room :=
  if room.hostId != senderId then room
  else if targetPlayerId == senderId then room
  else
    match getPlayer room targetPlayerId with
    | none => room
    | some _ => { room with players := room.players.filter (fun q => !(q.id == targetPlayerId)) }

/-- Room-state effect of `handlePlayerDisconnect` (server.js lines 271-272):
mark the player disconnected. -/
def markDisconnected (room : Room) (pid : String) : Room :=
  match getPlayer room pid with
  | none => room
  | some _ => updatePlayer room pid (fun p => { p with isConnected := false })

/-- Room-state effect of a successful `session:restore` (server.js lines
392-393): mark the player connected again. -/
def markConnected (room : Room) (pid : String) : Room :=
  match getPlayer room pid with
  | none => room
  | some _ => updatePlayer room pid (fun p => { p with isConnected := true })

/-- The 120-second reconnect-grace callback (server.js lines 281-314).  This
is the only timer that re-checks state before mutating: the room must still
exist (`none` models a deleted room) and the player must still be present
and disconnected.  On expiry the player is removed, host succession runs,
and an emptied room is deleted. -/
def reconnectTimeoutCb (roomOpt : Option Room) (pid : String) : Option Room :=
  match roomOpt with
  | none => none
  | some room =>
    match getPlayer room pid with
    | none => some room
    | some p =>
      if p.isConnected then some room
      else
        let room1 := { room with players := room.players.filter (fun q => !(q.id == pid)) }
        let room2 :=
          if room1.hostId == pid then
            match room1.players with
            | [] => room1
            | h :: t => { room1 with hostId := h.id, players := { h with isHost := true } :: t }
          else room1
        if room2.players.isEmpty then none else some room2

/- ===== Generic lemmas about the map model ===== -/

theorem find?_map_update (l : List Player) (pid : String) (f : Player → Player)
    (hf : ∀ p, (f p).id = p.id) :
    (l.map (fun p => if p.id == pid then f p else p)).find? (fun p => p.id == pid)
      = (l.find? (fun p => p.id == pid)).map f := by
  induction l with
  | nil => rfl
  | cons a as ih =>
    by_cases h : (a.id == pid) = true
    · have hfa : ((f a).id == pid) = true := by rw [hf]; exact h
      simp [List.find?, h, hfa]
    · have h2 : (a.id == pid) = false := by simpa using h
      simp only [List.map_cons, List.find?, h2, Bool.false_eq_true, if_false]
      exact ih

theorem getPlayer_updatePlayer (room : Room) (pid : String) (f : Player → Player)
    (hf : ∀ p, (f p).id = p.id) :
    getPlayer (updatePlayer room pid f) pid = (getPlayer room pid).map f :=
  find?_map_update room.players pid f hf

theorem getPlayer_updatePlayer_found (room : Room) (pid : String) (f : Player → Player)
    (p : Player) (hp : getPlayer room pid = some p) (hf : ∀ q, (f q).id = q.id) :
    getPlayer (updatePlayer room pid f) pid = some (f p) := by
  rw [getPlayer_updatePlayer room pid f hf, hp]
  rfl

theorem mem_updatePlayer_of_ne (room : Room) (pid : String) (f : Player → Player)
    (q : Player) (hq : q ∈ room.players) (hne : q.id ≠ pid) :
    q ∈ (updatePlayer room pid f).players := by
  refine List.mem_map.2 ⟨q, hq, ?_⟩
  simp [hne]

theorem mapLookup_mapSet_self {α : Type} (m : List (String × α)) (k : String) (v : α) :
    mapLookup (mapSet m k v) k = some v := by
  induction m with
  | nil => simp [mapSet, mapLookup]
  | cons e es ih =>
    by_cases h : (e.1 == k) = true
    · simp [mapSet, h, mapLookup]
    · simp only [mapSet, h, Bool.false_eq_true, if_false]
      simp only [mapLookup, List.find?]
      rw [show (e.1 == k) = false by simpa using h]
      exact ih

/- ===== C2: invalidation round-trip ===== -/

/-- Claim C2, stated over the embedded `answer:invalidate` handler: the first
toggle subtracts exactly the cached `points`, the second adds it back, the
cached entry's `points` value is never recomputed, and the round trip
restores both scores exactly. -/
def C2Concl (room : Room) (s1 s2 t c : String) (p : Player) (sc : CategoryScore) : Prop :=
  ∃ p1 p2,
    getPlayer (answerInvalidate room s1 t c) t = some p1 ∧
    getPlayer (answerInvalidate (answerInvalidate room s1 t c) s2 t c) t = some p2 ∧
    p1.roundScore = p.roundScore - sc.points ∧
    p1.totalScore = p.totalScore - sc.points ∧
    mapLookup p1.categoryScores c = some { sc with invalidatedBy := some s1 } ∧
    p2.roundScore = p.roundScore ∧
    p2.totalScore = p.totalScore ∧
    mapLookup p2.categoryScores c = some sc

theorem answerInvalidate_unfold_valid (room : Room) (s t c : String) (p : Player)
    (sc : CategoryScore) (hp : getPlayer room t = some p)
    (hsc : mapLookup p.categoryScores c = some sc) (hval : sc.invalidatedBy = none) :
    answerInvalidate room s t c = updatePlayer room t (invalidateMut c s sc) := by
  simp [answerInvalidate, hp, hsc, hval]

theorem answerInvalidate_unfold_invalid (room : Room) (s t c w : String) (p : Player)
    (sc : CategoryScore) (hp : getPlayer room t = some p)
    (hsc : mapLookup p.categoryScores c = some sc) (hval : sc.invalidatedBy = some w) :
    answerInvalidate room s t c = updatePlayer room t (revalidateMut c sc) := by
  simp [answerInvalidate, hp, hsc, hval]

/-- C2: invalidating then re-validating a recorded (player, category) entry
restores `roundScore` and `totalScore` exactly, and each toggle moves the
scores by the cached scoring-pass `points` value. -/
theorem c2_invalidate_roundtrip (room : Room) (s1 s2 t c : String) (p : Player)
    (sc : CategoryScore) (hp : getPlayer room t = some p)
    (hsc : mapLookup p.categoryScores c = some sc)
    (hval : sc.invalidatedBy = none) : C2Concl room s1 s2 t c p sc := by
  obtain ⟨pts, iv, ans, inv⟩ := sc
  obtain rfl : inv = none := hval
  have e1 := answerInvalidate_unfold_valid room s1 t c p
    ⟨pts, iv, ans, none⟩ hp hsc rfl
  have hp1 : getPlayer (answerInvalidate room s1 t c) t
      = some (invalidateMut c s1 ⟨pts, iv, ans, none⟩ p) := by
    rw [e1]
    exact getPlayer_updatePlayer_found room t (invalidateMut c s1 ⟨pts, iv, ans, none⟩) p hp
      (fun q => rfl)
  have hsc1 : mapLookup (invalidateMut c s1 ⟨pts, iv, ans, none⟩ p).categoryScores c
      = some { points := pts, isValid := iv, answer := ans, invalidatedBy := some s1 } :=
    mapLookup_mapSet_self _ _ _
  have e2 := answerInvalidate_unfold_invalid (answerInvalidate room s1 t c) s2 t c s1
    (invalidateMut c s1 ⟨pts, iv, ans, none⟩ p)
    ⟨pts, iv, ans, some s1⟩ hp1 hsc1 rfl
  have hp2 : getPlayer (answerInvalidate (answerInvalidate room s1 t c) s2 t c) t
      = some (revalidateMut c ⟨pts, iv, ans, some s1⟩
          (invalidateMut c s1 ⟨pts, iv, ans, none⟩ p)) := by
    rw [e2]
    exact getPlayer_updatePlayer_found (answerInvalidate room s1 t c) t
      (revalidateMut c ⟨pts, iv, ans, some s1⟩)
      (invalidateMut c s1 ⟨pts, iv, ans, none⟩ p) hp1 (fun q => rfl)
  refine ⟨invalidateMut c s1 ⟨pts, iv, ans, none⟩ p,
    revalidateMut c ⟨pts, iv, ans, some s1⟩ (invalidateMut c s1 ⟨pts, iv, ans, none⟩ p),
    hp1, hp2, rfl, rfl, hsc1, ?_, ?_, ?_⟩
  · show p.roundScore - pts + pts = p.roundScore
    omega
  · show p.totalScore - pts + pts = p.totalScore
    omega
  · exact mapLookup_mapSet_self _ _ _

def c2Score : CategoryScore :=
  { points := 20, isValid := true, answer := "ბაქო", invalidatedBy := none }

def c2Player : Player :=
  { id := "pA", nick := "ანა", avatarSeed := "s1", isHost := true, isReady := true,
    isConnected := true, answers := [("cat_0", "ბაქო")],
    categoryScores := [("cat_0", c2Score)], roundScore := 20, totalScore := 35,
    hasSubmitted := true }

def c2Room : Room :=
  { code := "AAAAA", hostId := "pA", players := [c2Player],
    settings := { minTime := 15, maxRounds := 5, useBonus := false,
                  categories := ["ქალაქი"] },
    gameState := { phase := .results, currentRound := 2, currentLetter := "ბ",
                   usedLetters := ["ბ"], activeCategories := [("cat_0", "ქალაქი")],
                   stoppedBy := some "ანა", timerEnabled := true, allAnswersSubmitted := true } }

theorem c2_invalidate_roundtrip_witness :
    getPlayer c2Room "pA" = some c2Player ∧
    mapLookup c2Player.categoryScores "cat_0" = some c2Score ∧
    c2Score.invalidatedBy = none ∧
    C2Concl c2Room "pB" "pC" "pA" "cat_0" c2Player c2Score :=
  ⟨by decide, by decide, by decide,
   c2_invalidate_roundtrip c2Room "pB" "pC" "pA" "cat_0" c2Player c2Score
     (by decide) (by decide) (by decide)⟩

/- ===== C9: round:stop before the min-time timer ===== -/

/-- C9: a `round:stop` in the playing phase before the min-time timer has
enabled stopping replies `game:error` with `დაელოდეთ ტაიმერს` to the
originating connection only and leaves the room unchanged. -/
theorem c9_stop_before_timer (room : Room) (senderId : String)
    (hph : room.gameState.phase = Phase.playing)
    (ht : room.gameState.timerEnabled = false) :
    roundStop room senderId
      = (room, [{ target := EmitTarget.senderOnly,
                  msg := EmitMsg.gameError "დაელოდეთ ტაიმერს" }]) := by
  simp [roundStop, hph, ht]

def c9Room : Room :=
  { code := "BBBBB", hostId := "pA", players := [c2Player],
    settings := { minTime := 15, maxRounds := 5, useBonus := false,
                  categories := ["ქალაქი"] },
    gameState := { phase := .playing, currentRound := 1, currentLetter := "ა",
                   usedLetters := ["ა"], activeCategories := [("cat_0", "ქალაქი")],
                   stoppedBy := none, timerEnabled := false, allAnswersSubmitted := false } }

theorem c9_stop_before_timer_witness :
    c9Room.gameState.phase = Phase.playing ∧
    c9Room.gameState.timerEnabled = false ∧
    roundStop c9Room "pA"
      = (c9Room, [{ target := EmitTarget.senderOnly,
                    msg := EmitMsg.gameError "დაელოდეთ ტაიმერს" }]) :=
  ⟨by decide, by decide, c9_stop_before_timer c9Room "pA" (by decide) (by decide)⟩

/- ===== C10: answers:submit is phase-free and does not touch scores ===== -/

/-- Claim C10, stated over the embedded `answers:submit` handler. -/
def C10Concl (room : Room) (senderId : String) (answers : List (String × String))
    (p : Player) : Prop :=
  ∃ p1,
    getPlayer (answersSubmit room senderId answers) senderId = some p1 ∧
    p1.answers = answers ∧
    p1.hasSubmitted = true ∧
    p1.categoryScores = p.categoryScores ∧
    p1.roundScore = p.roundScore ∧
    p1.totalScore = p.totalScore ∧
    (answersSubmit room senderId answers).gameState.phase = room.gameState.phase ∧
    (∀ q ∈ room.players, q.id ≠ senderId → q ∈ (answersSubmit room senderId answers).players)

/-- C10: `answers:submit` from a bound player is accepted in every phase; it
replaces the player's answers and sets `hasSubmitted`, while the player's
`categoryScores`, `roundScore` and `totalScore` (and every other player's
record, and the phase) are unchanged. -/
theorem c10_submit_any_phase (room : Room) (senderId : String)
    (answers : List (String × String)) (p : Player)
    (hp : getPlayer room senderId = some p) : C10Concl room senderId answers p := by
  have hplayers : (answersSubmit room senderId answers).players
      = (updatePlayer room senderId (fun q =>
          { q with answers := answers, hasSubmitted := true })).players := by
    simp only [answersSubmit, hp]
    split
    · rfl
    · rfl
  have hphase : (answersSubmit room senderId answers).gameState.phase
      = room.gameState.phase := by
    simp only [answersSubmit, hp]
    split
    · rfl
    · rfl
  have hget : (answersSubmit room senderId answers).players.find? (fun q => q.id == senderId)
      = some { p with answers := answers, hasSubmitted := true } := by
    rw [hplayers]
    have := getPlayer_updatePlayer room senderId
      (fun q => { q with answers := answers, hasSubmitted := true }) (fun q => rfl)
    rw [hp] at this
    exact this
  refine ⟨{ p with answers := answers, hasSubmitted := true }, hget, rfl, rfl, rfl, rfl, rfl,
    hphase, ?_⟩
  intro q hq hne
  rw [hplayers]
  exact mem_updatePlayer_of_ne room senderId _ q hq hne

def c10Room : Room :=
  { code := "CCCCC", hostId := "pA", players := [c2Player, c1PlayerC],
    settings := { minTime := 15, maxRounds := 5, useBonus := false,
                  categories := ["ქალაქი"] },
    gameState := { phase := .results, currentRound := 2, currentLetter := "ბ",
                   usedLetters := ["ბ"], activeCategories := [("cat_0", "ქალაქი")],
                   stoppedBy := some "ანა", timerEnabled := true, allAnswersSubmitted := true } }

theorem c10_submit_any_phase_witness :
    c10Room.gameState.phase = Phase.results ∧
    getPlayer c10Room "pA" = some c2Player ∧
    C10Concl c10Room "pA" [("cat_0", "ბერლინი")] c2Player :=
  ⟨by decide, by decide,
   c10_submit_any_phase c10Room "pA" [("cat_0", "ბერლინი")] c2Player (by decide)⟩

/- ===== C3: phase guards on inbound events ===== -/

def c3Player : Player :=
  { id := "h1", nick := "ჰოსტი", avatarSeed := "s", isHost := true, isReady := true,
    isConnected := true, answers := [], categoryScores := [], roundScore := 0,
    totalScore := 0, hasSubmitted := false }

def c3Room : Room :=
  { code := "DDDDD", hostId := "h1", players := [c3Player],
    settings := { minTime := 15, maxRounds := 5, useBonus := false,
                  categories := DEFAULT_CATEGORIES },
    gameState := { phase := .playing, currentRound := 1, currentLetter := "ა",
                   usedLetters := ["ა"], activeCategories := [("cat_0", "ქალაქი")],
                   stoppedBy := none, timerEnabled := false, allAnswersSubmitted := false } }

def c3RoomB : Room :=
  { code := "DDDDE", hostId := "h1",
    players := [{ c3Player with
      categoryScores := [("cat_0",
        { points := 20, isValid := true, answer := "ავსტრია", invalidatedBy := none })],
      roundScore := 20, totalScore := 20 }],
    settings := { minTime := 15, maxRounds := 5, useBonus := false,
                  categories := DEFAULT_CATEGORIES },
    gameState := { phase := .lobby, currentRound := 0, currentLetter := "ა",
                   usedLetters := [], activeCategories := [("cat_0", "ქალაქი")],
                   stoppedBy := none, timerEnabled := false, allAnswersSubmitted := false } }

/-- C3 counterexample: with the room in the `playing` phase, `game:start`
from the (all-ready) host advances it to `sticks`, and `game:nextRound` also
acts; with the room in the `lobby` phase, `answer:invalidate` still mutates
scores.  None of these handlers is guarded by its FSM source phase. -/
theorem c3_counterexample :
    c3Room.gameState.phase = Phase.playing ∧
    (gameStart c3Room "h1").gameState.phase = Phase.sticks ∧
    gameStart c3Room "h1" ≠ c3Room ∧
    (gameNextRound c3Room "h1").gameState.phase = Phase.sticks ∧
    c3RoomB.gameState.phase = Phase.lobby ∧
    answerInvalidate c3RoomB "h1" "h1" "cat_0" ≠ c3RoomB := by
  decide

/-- C3 amended: only `round:stop` is phase-guarded (it acts only in
`playing`); `game:start` takes effect whenever the sender is host and all
connected players are ready, regardless of phase; `game:nextRound` acts in
any phase when the sender is host; `answer:invalidate` mutates in any phase
whenever the target exists and has the cached entry.  When one of these
authorization/readiness/existence guards fails, the room is unchanged. -/
theorem c3_amended_guards :
    (∀ room s, room.hostId ≠ s → gameStart room s = room) ∧
    (∀ room s, allPlayersReady room = false → gameStart room s = room) ∧
    (∀ room s, room.hostId = s → allPlayersReady room = true →
      (gameStart room s).gameState.phase = Phase.sticks) ∧
    (∀ room s, room.hostId ≠ s → gameNextRound room s = room) ∧
    (∀ room s, room.hostId = s →
      (gameNextRound room s).gameState.phase = Phase.ended ∨
      (gameNextRound room s).gameState.phase = Phase.sticks) ∧
    (∀ room s t c, getPlayer room t = none → answerInvalidate room s t c = room) ∧
    (∀ room s t c p, getPlayer room t = some p → mapLookup p.categoryScores c = none →
      answerInvalidate room s t c = room) ∧
    (∀ room s, room.gameState.phase ≠ Phase.playing → (roundStop room s).1 = room) := by
  refine ⟨?_, ?_, ?_, ?_, ?_, ?_, ?_, ?_⟩
  · intro room s h
    simp [gameStart, bne_iff_ne, h]
  · intro room s h
    by_cases hh : room.hostId = s
    · simp [gameStart, bne_iff_ne, hh, h]
    · simp [gameStart, bne_iff_ne, hh]
  · intro room s h hr
    simp [gameStart, bne_iff_ne, h, hr]
  · intro room s h
    simp [gameNextRound, bne_iff_ne, h]
  · intro room s h
    by_cases hm : room.settings.maxRounds ≤ room.gameState.currentRound
    · left
      simp [gameNextRound, bne_iff_ne, h, hm]
    · right
      simp [gameNextRound, bne_iff_ne, h, hm]
  · intro room s t c h
    simp [answerInvalidate, h]
  · intro room s t c p h hsc
    simp [answerInvalidate, h, hsc]
  · intro room s h
    simp [roundStop, bne_iff_ne, h]

theorem c3_amended_guards_witness :
    c3Room.hostId ≠ "zz" ∧ gameStart c3Room "zz" = c3Room :=
  ⟨by decide, c3_amended_guards.1 c3Room "zz" (by decide)⟩

/- ===== C5: timer callbacks and staleness ===== -/

def c5Room : Room :=
  { code := "EEEEE", hostId := "h1", players := [c3Player],
    settings := { minTime := 15, maxRounds := 5, useBonus := false,
                  categories := DEFAULT_CATEGORIES },
    gameState := { phase := .ended, currentRound := 5, currentLetter := "ჰ",
                   usedLetters := ["ჰ"], activeCategories := [("cat_0", "ქალაქი")],
                   stoppedBy := some "ჰოსტი", timerEnabled := true,
                   allAnswersSubmitted := true } }

def c5RoomB : Room :=
  { code := "EEEEF", hostId := "h1", players := [c3Player],
    settings := { minTime := 15, maxRounds := 5, useBonus := false,
                  categories := DEFAULT_CATEGORIES },
    gameState := { phase := .results, currentRound := 2, currentLetter := "ბ",
                   usedLetters := ["ბ"], activeCategories := [("cat_0", "ქალაქი")],
                   stoppedBy := some "ჰოსტი", timerEnabled := false,
                   allAnswersSubmitted := false } }

/-- C5 counterexample: starting from an `ended` room, the host returns to the
lobby and starts a new game (phase `sticks`); when the 10-second end-game
cooldown then fires, it still resets the room to `lobby` — it is not a no-op
although the room has left the `ended` phase.  Likewise a stale min-time
callback sets stop eligibility in a `results`-phase state. -/
theorem c5_counterexample :
    c5Room.gameState.phase = Phase.ended ∧
    (gameStart (gameReturnToLobby c5Room "h1") "h1").gameState.phase = Phase.sticks ∧
    (endGameCooldownCb (gameStart (gameReturnToLobby c5Room "h1") "h1")).gameState.phase
      = Phase.lobby ∧
    endGameCooldownCb (gameStart (gameReturnToLobby c5Room "h1") "h1")
      ≠ gameStart (gameReturnToLobby c5Room "h1") "h1" ∧
    c5RoomB.gameState.phase = Phase.results ∧
    c5RoomB.gameState.timerEnabled = false ∧
    (minTimeCb c5RoomB).gameState.timerEnabled = true := by
  decide

/-- C5 amended: the draw/letter-reveal chain (`startRound`), the min-time
callback, the stop countdown (`endRound`) and the end-game cooldown mutate
the captured room unconditionally in whatever state it is in when they fire;
only the reconnect-grace callback re-checks state (room still exists, player
still present and disconnected) and is a no-op otherwise. -/
theorem c5_amended_timers :
    (∀ room, (endGameCooldownCb room).gameState.phase = Phase.lobby) ∧
    (∀ room, (minTimeCb room).gameState.timerEnabled = true ∧
             (minTimeCb room).gameState.phase = room.gameState.phase) ∧
    (∀ room, (endRound room).gameState.phase = Phase.results) ∧
    (∀ room r, (startRound room r).gameState.phase = Phase.playing) ∧
    (∀ pid, reconnectTimeoutCb none pid = none) ∧
    (∀ room pid, getPlayer room pid = none → reconnectTimeoutCb (some room) pid = some room) ∧
    (∀ room pid p, getPlayer room pid = some p → p.isConnected = true →
      reconnectTimeoutCb (some room) pid = some room) := by
  refine ⟨fun room => rfl, fun room => ⟨rfl, rfl⟩, fun room => rfl, fun room r => rfl,
    fun pid => rfl, ?_, ?_⟩
  · intro room pid h
    simp [reconnectTimeoutCb, h]
  · intro room pid p h hc
    simp [reconnectTimeoutCb, h, hc]

theorem c5_amended_timers_witness :
    getPlayer c5Room "nobody" = none ∧
    reconnectTimeoutCb (some c5Room) "nobody" = some c5Room :=
  ⟨by decide, c5_amended_timers.2.2.2.2.2.1 c5Room "nobody" (by decide)⟩

/- ===== More list lemmas ===== -/

theorem getD_mem_of_lt {α : Type} (l : List α) (i : Nat) (d : α) (h : i < l.length) :
    l.getD i d ∈ l := by
  induction l generalizing i with
  | nil => simp at h
  | cons a as ih =>
    cases i with
    | zero => simp [List.getD]
    | succ n =>
      have hn : n < as.length := by simpa using h
      simp only [List.getD_cons_succ]
      exact List.mem_cons_of_mem a (ih n hn)

theorem mem_keys_mapSet {α : Type} (m : List (String × α)) (k x : String) (v : α)
    (hx : x ∈ (mapSet m k v).map Prod.fst) : x ∈ m.map Prod.fst ∨ x = k := by
  induction m with
  | nil =>
    simp [mapSet] at hx
    right
    exact hx
  | cons e es ih =>
    by_cases h : (e.1 == k) = true
    · simp only [mapSet, h, if_true, List.map_cons, List.mem_cons] at hx
      rcases hx with hx | hx
      · right; exact hx
      · left; exact List.mem_cons_of_mem _ hx
    · simp only [mapSet, h, Bool.false_eq_true, if_false, List.map_cons, List.mem_cons] at hx
      rcases hx with hx | hx
      · left
        rw [List.map_cons, hx]
        exact List.mem_cons_self _ _
      · rcases ih hx with hx2 | hx2
        · left; exact List.mem_cons_of_mem _ hx2
        · right; exact hx2

theorem mapSet_keys_nodup {α : Type} (m : List (String × α)) (k : String) (v : α)
    (h : (m.map Prod.fst).Nodup) : ((mapSet m k v).map Prod.fst).Nodup := by
  induction m with
  | nil => simp [mapSet]
  | cons e es ih =>
    simp only [List.map_cons, List.nodup_cons] at h
    by_cases hk : (e.1 == k) = true
    · have hek : e.1 = k := beq_iff_eq.1 hk
      simp only [mapSet, hk, if_true, List.map_cons, List.nodup_cons]
      exact ⟨by rw [← hek]; exact h.1, h.2⟩
    · simp only [mapSet, hk, Bool.false_eq_true, if_false, List.map_cons, List.nodup_cons]
      refine ⟨?_, ih h.2⟩
      intro hmem
      rcases mem_keys_mapSet es k e.1 v hmem with h2 | h2
      · exact h.1 h2
      · exact absurd (beq_iff_eq.2 h2) (by simpa using hk)

theorem mapLookup_mapDelete_self {α : Type} (m : List (String × α)) (k : String) :
    mapLookup (mapDelete m k) k = none := by
  induction m with
  | nil => rfl
  | cons e es ih =>
    by_cases h : (e.1 == k) = true
    · simp only [mapDelete, List.filter_cons, h, Bool.not_true, Bool.false_eq_true, if_false]
      simp only [mapDelete] at ih
      exact ih
    · have h2 : (e.1 == k) = false := by simpa using h
      simp only [mapDelete, List.filter_cons, h2, Bool.not_false, if_true]
      simp only [mapLookup, List.find?, h2]
      simp only [mapDelete, mapLookup] at ih
      exact ih

/- ===== C4: room code generation and registry uniqueness ===== -/

/-- The 32-character code alphabet (server.js line 61). -/
def GEN_CODE_CHARS : List Char := "ABCDEFGHJKLMNPQRSTUVWXYZ23456789".data

/-- `generateRoomCode()` (server.js lines 60-67): five characters, each
`chars.charAt(Math.floor(Math.random() * chars.length))`; the i-th random
draw is modelled by `rands[i] % 32`. -/
def generateRoomCode (rands : List Nat) : String :=
  String.mk ((List.range 5).map (fun i =>
    GEN_CODE_CHARS.getD ((rands.getD i 0) % GEN_CODE_CHARS.length) 'A'))

/-- Default room settings (server.js lines 81-86). -/
def defaultSettings : Settings :=
  { minTime := 15, maxRounds := 5, useBonus := false, categories := DEFAULT_CATEGORIES }

/-- Initial game state of a fresh room (server.js lines 87-97). -/
def initialGameState : GameState :=
  { phase := .lobby, currentRound := 0, currentLetter := "", usedLetters := [],
    activeCategories := [], stoppedBy := none, timerEnabled := false,
    allAnswersSubmitted := false }

/-- The host player object (server.js lines 100-113). -/
def hostPlayer (hostId nick avatarSeed : String) : Player :=
  { id := hostId, nick := nick, avatarSeed := avatarSeed, isHost := true, isReady := true,
    isConnected := true, answers := [], categoryScores := [], roundScore := 0,
    totalScore := 0, hasSubmitted := false }

/-- The room object built by `createRoom` (server.js lines 77-113). -/
def createRoomObj (code hostId nick avatarSeed : String) : Room :=
  { code := code, hostId := hostId, players := [hostPlayer hostId nick avatarSeed],
    settings := defaultSettings, gameState := initialGameState }

/-- `createRoom(hostId, hostData)` at registry level (server.js lines
75-117): `generateRoomCode()` is called exactly once, with no check against
the registry, and `rooms.set(roomCode, room)` stores the room under it. -/
def createRoom (registry : List (String × Room)) (rands : List Nat)
    (hostId nick avatarSeed : String) : String × List (String × Room) :=
  let code := generateRoomCode rands
  (code, mapSet registry code (createRoomObj code hostId nick avatarSeed))

def c4Registry : List (String × Room) :=
  [("AAAAA", createRoomObj "AAAAA" "h1" "ანა" "s1")]

/-- C4 counterexample: with `AAAAA` already live, random draws that produce
`AAAAA` again are accepted — `createRoom` does not generate further
candidates, and the colliding `Map.set` silently replaces the existing room
(the registry still has one entry, now owned by the new host). -/
theorem c4_counterexample :
    generateRoomCode [0, 0, 0, 0, 0] = "AAAAA" ∧
    (mapLookup c4Registry "AAAAA").isSome = true ∧
    (createRoom c4Registry [0, 0, 0, 0, 0] "h2" "ბექა" "s2").1 = "AAAAA" ∧
    mapLookup (createRoom c4Registry [0, 0, 0, 0, 0] "h2" "ბექა" "s2").2 "AAAAA"
      = some (createRoomObj "AAAAA" "h2" "ბექა" "s2") ∧
    (createRoom c4Registry [0, 0, 0, 0, 0] "h2" "ბექა" "s2").2.length = 1 := by
  decide

/-- C4 amended: `createRoom` generates a single 5-character candidate from
the alphabet `ABCDEFGHJKLMNPQRSTUVWXYZ23456789` without checking the
registry (the stored code is `generateRoomCode rands` whatever the registry
holds); because the registry is a map keyed by code, no two live rooms ever
share a code — but a colliding candidate replaces the existing room rather
than being re-drawn. -/
theorem c4_amended_codes :
    (∀ registry rands hostId nick avatarSeed,
      (createRoom registry rands hostId nick avatarSeed).1 = generateRoomCode rands) ∧
    (∀ rands, (generateRoomCode rands).data.length = 5 ∧
      ∀ ch ∈ (generateRoomCode rands).data, ch ∈ GEN_CODE_CHARS) ∧
    (∀ registry rands hostId nick avatarSeed,
      (registry.map Prod.fst).Nodup →
      ((createRoom registry rands hostId nick avatarSeed).2.map Prod.fst).Nodup) := by
  refine ⟨fun _ _ _ _ _ => rfl, ?_, ?_⟩
  · intro rands
    have hdata : (generateRoomCode rands).data
        = (List.range 5).map (fun i =>
            GEN_CODE_CHARS.getD ((rands.getD i 0) % GEN_CODE_CHARS.length) 'A') := rfl
    constructor
    · rw [hdata]
      simp
    · intro ch hch
      rw [hdata] at hch
      rcases List.mem_map.1 hch with ⟨i, _, rfl⟩
      exact getD_mem_of_lt _ _ _ (Nat.mod_lt _ (by decide))
  · intro registry rands hostId nick avatarSeed hnd
    exact mapSet_keys_nodup _ _ _ hnd

theorem c4_amended_codes_witness :
    (c4Registry.map Prod.fst).Nodup ∧
    ((createRoom c4Registry [1, 2, 3, 4, 5] "h3" "გია" "s3").2.map Prod.fst).Nodup :=
  ⟨by decide, c4_amended_codes.2.2 c4Registry [1, 2, 3, 4, 5] "h3" "გია" "s3" (by decide)⟩

/- ===== C6: pending-reconnect timers ===== -/

/-- The global reconnect bookkeeping: `disconnectedPlayers` maps playerId to
its pending record whose armed timer is modelled by a numeric handle;
`cancelled` records handles on which `clearTimeout` was called; `nextTimer`
numbers fresh timers. -/
structure ReconnectState where
  pending : List (String × Nat)
  cancelled : List Nat
  nextTimer : Nat
deriving DecidableEq, Repr

/-- `handlePlayerDisconnect` bookkeeping (server.js lines 274-320): clear any
existing timeout for this player, then store a fresh timer under the id. -/
def discoOnDisconnect (s : ReconnectState) (pid : String) : ReconnectState :=
  let s1 :=
    match mapLookup s.pending pid with
    | some h => { s with cancelled := s.cancelled ++ [h] }
    | none => s
  { s1 with pending := mapSet s1.pending pid s1.nextTimer, nextTimer := s1.nextTimer + 1 }

/-- `session:restore` bookkeeping (server.js lines 378-384): clear the
pending timeout and delete the `disconnectedPlayers` entry. -/
def discoOnRestore (s : ReconnectState) (pid : String) : ReconnectState :=
  match mapLookup s.pending pid with
  | some h => { s with cancelled := s.cancelled ++ [h], pending := mapDelete s.pending pid }
  | none => s

/-- `room:leave` (server.js lines 825-866) performs no operation on
`disconnectedPlayers` or its timers. -/
def discoOnRoomLeave (s : ReconnectState) (_pid : String) : ReconnectState := s

/-- `player:kick` (server.js lines 869-897) performs no operation on
`disconnectedPlayers` or its timers. -/
def discoOnPlayerKick (s : ReconnectState) (_pid : String) : ReconnectState := s

def c6State : ReconnectState := { pending := [("p2", 0)], cancelled := [], nextTimer := 1 }

/-- C6 counterexample: with a pending-reconnect timer armed for `p2`,
kicking (or removing) `p2` leaves the pending entry in place and its timer
uncancelled — `player:kick` and `room:leave` do not cancel the timer. -/
theorem c6_counterexample :
    mapLookup c6State.pending "p2" = some 0 ∧
    discoOnPlayerKick c6State "p2" = c6State ∧
    discoOnRoomLeave c6State "p2" = c6State ∧
    mapLookup (discoOnPlayerKick c6State "p2").pending "p2" = some 0 ∧
    (0 ∈ (discoOnPlayerKick c6State "p2").cancelled → False) := by
  decide

/-- C6 amended: at most one pending timer exists per playerId (the map is
keyed by playerId, a re-disconnect clears the prior timer before arming a
fresh one), and `session:restore` cancels the player's pending timer; but
`room:leave` and `player:kick` leave the `disconnectedPlayers` entry and its
timer untouched. -/
theorem c6_amended_reconnect :
    (∀ s pid, (s.pending.map Prod.fst).Nodup →
      ((discoOnDisconnect s pid).pending.map Prod.fst).Nodup) ∧
    (∀ s pid, mapLookup (discoOnDisconnect s pid).pending pid = some s.nextTimer) ∧
    (∀ s pid h, mapLookup s.pending pid = some h →
      h ∈ (discoOnDisconnect s pid).cancelled) ∧
    (∀ s pid, mapLookup (discoOnRestore s pid).pending pid = none) ∧
    (∀ s pid h, mapLookup s.pending pid = some h → h ∈ (discoOnRestore s pid).cancelled) ∧
    (∀ s pid, discoOnRoomLeave s pid = s ∧ discoOnPlayerKick s pid = s) := by
  refine ⟨?_, ?_, ?_, ?_, ?_, fun s pid => ⟨rfl, rfl⟩⟩
  · intro s pid hnd
    cases hm : mapLookup s.pending pid with
    | none =>
      simp only [discoOnDisconnect, hm]
      exact mapSet_keys_nodup _ _ _ hnd
    | some h =>
      simp only [discoOnDisconnect, hm]
      exact mapSet_keys_nodup _ _ _ hnd
  · intro s pid
    cases hm : mapLookup s.pending pid with
    | none =>
      simp only [discoOnDisconnect, hm]
      exact mapLookup_mapSet_self _ _ _
    | some h =>
      simp only [discoOnDisconnect, hm]
      exact mapLookup_mapSet_self _ _ _
  · intro s pid h hm
    simp [discoOnDisconnect, hm]
  · intro s pid
    cases hm : mapLookup s.pending pid with
    | none =>
      simp [discoOnRestore, hm]
    | some h =>
      simp only [discoOnRestore, hm]
      exact mapLookup_mapDelete_self _ _
  · intro s pid h hm
    simp [discoOnRestore, hm]

theorem c6_amended_reconnect_witness :
    mapLookup c6State.pending "p2" = some 0 ∧
    0 ∈ (discoOnRestore c6State "p2").cancelled :=
  ⟨by decide, c6_amended_reconnect.2.2.2.2.1 c6State "p2" 0 (by decide)⟩

/- ===== C7: letter selection and exhaustion ===== -/

theorem contains_eq_true_iff_mem (l : List String) (a : String) :
    l.contains a = true ↔ a ∈ l := by
  induction l with
  | nil => simp
  | cons x xs ih =>
    simp only [List.contains_cons, Bool.or_eq_true, beq_iff_eq, List.mem_cons, ih]

theorem setAdd_not_mem (s : List String) (x : String) (h : s.contains x = false) :
    setAdd s x = s ++ [x] := by
  unfold setAdd
  rw [h]
  simp

/-- `alphabet \ usedLetters` as computed at server.js line 164. -/
def availableLetters (room : Room) : List String :=
  GEORGIAN_ALPHABET.filter (fun l => !(room.gameState.usedLetters.contains l))

theorem selectRandomLetter_eq_nonempty (room : Room) (r : Nat)
    (hie : (GEORGIAN_ALPHABET.filter
      (fun l => !(room.gameState.usedLetters.contains l))).isEmpty = false) :
    selectRandomLetter room r
      = ((GEORGIAN_ALPHABET.filter (fun l => !(room.gameState.usedLetters.contains l))).getD
          (r % (GEORGIAN_ALPHABET.filter
            (fun l => !(room.gameState.usedLetters.contains l))).length) "", room) := by
  simp only [selectRandomLetter]
  rw [hie]
  rfl

theorem selectRandomLetter_eq_empty (room : Room) (r : Nat)
    (hie : (GEORGIAN_ALPHABET.filter
      (fun l => !(room.gameState.usedLetters.contains l))).isEmpty = true) :
    selectRandomLetter room r
      = (GEORGIAN_ALPHABET.getD (r % GEORGIAN_ALPHABET.length) "",
         { room with gameState := { room.gameState with usedLetters := [] } }) := by
  simp only [selectRandomLetter]
  rw [hie]
  rfl

theorem sticksDraw_eq_nonempty (room : Room) (r : Nat)
    (h : availableLetters room ≠ []) :
    sticksDraw room room.hostId r
      = { room with gameState := { room.gameState with
            currentLetter :=
              (availableLetters room).getD (r % (availableLetters room).length) "",
            usedLetters := setAdd room.gameState.usedLetters
              ((availableLetters room).getD (r % (availableLetters room).length) "") } } := by
  have hie : (GEORGIAN_ALPHABET.filter
      (fun l => !(room.gameState.usedLetters.contains l))).isEmpty = false := by
    cases hl : availableLetters room with
    | nil => exact absurd hl h
    | cons a as =>
      have h2 : GEORGIAN_ALPHABET.filter
          (fun l => !(room.gameState.usedLetters.contains l)) = a :: as := hl
      rw [h2]
      rfl
  have hsel := selectRandomLetter_eq_nonempty room r hie
  simp only [sticksDraw, bne_self_eq_false]
  rw [hsel]
  rfl

theorem sticksDraw_eq_empty (room : Room) (r : Nat)
    (h : availableLetters room = []) :
    sticksDraw room room.hostId r
      = { room with gameState := { room.gameState with
            currentLetter := GEORGIAN_ALPHABET.getD (r % GEORGIAN_ALPHABET.length) "",
            usedLetters := [GEORGIAN_ALPHABET.getD (r % GEORGIAN_ALPHABET.length) ""] } } := by
  have hie : (GEORGIAN_ALPHABET.filter
      (fun l => !(room.gameState.usedLetters.contains l))).isEmpty = true := by
    have h2 : GEORGIAN_ALPHABET.filter
        (fun l => !(room.gameState.usedLetters.contains l)) = [] := h
    rw [h2]
    rfl
  have hsel := selectRandomLetter_eq_empty room r hie
  simp only [sticksDraw, bne_self_eq_false]
  rw [hsel]
  rfl

/-- Claim C7, stated over the embedded `sticks:draw`: the draw picks from
`alphabet \ usedLetters` (every index of that list is reachable by some
random oracle value), appends the drawn letter to `usedLetters`, and when
the set is exhausted it clears `usedLetters`, draws from the full 33-letter
alphabet and leaves `usedLetters` a singleton holding the drawn letter. -/
def C7Concl (room : Room) (r : Nat) : Prop :=
  GEORGIAN_ALPHABET.length = 33 ∧
  (availableLetters room ≠ [] →
    (sticksDraw room room.hostId r).gameState.currentLetter ∈ availableLetters room ∧
    ¬ (sticksDraw room room.hostId r).gameState.currentLetter
        ∈ room.gameState.usedLetters ∧
    (sticksDraw room room.hostId r).gameState.usedLetters
      = room.gameState.usedLetters
          ++ [(sticksDraw room room.hostId r).gameState.currentLetter]) ∧
  (availableLetters room = [] →
    (sticksDraw room room.hostId r).gameState.currentLetter ∈ GEORGIAN_ALPHABET ∧
    (sticksDraw room room.hostId r).gameState.usedLetters
      = [(sticksDraw room room.hostId r).gameState.currentLetter]) ∧
  (∀ i, i < (availableLetters room).length →
    (sticksDraw room room.hostId i).gameState.currentLetter
      = (availableLetters room).getD i "") ∧
  ((∀ l ∈ GEORGIAN_ALPHABET, l ∈ room.gameState.usedLetters) →
    (sticksDraw room room.hostId r).gameState.usedLetters
      = [(sticksDraw room room.hostId r).gameState.currentLetter])

/-- C7: letter selection draws from `alphabet \ usedLetters`, adds the drawn
letter to `usedLetters`, and on exhaustion clears the set and draws from the
full 33-letter alphabet, leaving `usedLetters` a singleton of the drawn
letter. -/
theorem c7_letter_selection (room : Room) (r : Nat) : C7Concl room r := by
  refine ⟨rfl, ?_, ?_, ?_, ?_⟩
  · intro h
    have hlen : 0 < (availableLetters room).length := List.length_pos.2 h
    have hidx : r % (availableLetters room).length < (availableLetters room).length :=
      Nat.mod_lt _ hlen
    have hmem : (availableLetters room).getD (r % (availableLetters room).length) ""
        ∈ availableLetters room := getD_mem_of_lt _ _ _ hidx
    have hfil := List.mem_filter.1 hmem
    have h2 : (!(room.gameState.usedLetters.contains
        ((availableLetters room).getD (r % (availableLetters room).length) ""))) = true :=
      hfil.2
    have hcon : room.gameState.usedLetters.contains
        ((availableLetters room).getD (r % (availableLetters room).length) "") = false := by
      cases hc : room.gameState.usedLetters.contains
          ((availableLetters room).getD (r % (availableLetters room).length) "") with
      | false => rfl
      | true =>
        rw [hc] at h2
        exact absurd h2 (by decide)
    rw [sticksDraw_eq_nonempty room r h]
    refine ⟨hmem, ?_, ?_⟩
    · intro habs
      rw [← contains_eq_true_iff_mem] at habs
      rw [habs] at hcon
      cases hcon
    · exact setAdd_not_mem _ _ hcon
  · intro h
    rw [sticksDraw_eq_empty room r h]
    have hidx : r % GEORGIAN_ALPHABET.length < GEORGIAN_ALPHABET.length :=
      Nat.mod_lt _ (by decide)
    exact ⟨getD_mem_of_lt _ _ _ hidx, rfl⟩
  · intro i hi
    have hne : availableLetters room ≠ [] := by
      intro hnil
      rw [hnil] at hi
      simp at hi
    rw [sticksDraw_eq_nonempty room i hne]
    show (availableLetters room).getD (i % (availableLetters room).length) ""
      = (availableLetters room).getD i ""
    rw [Nat.mod_eq_of_lt hi]
  · intro hall
    have h : availableLetters room = [] := by
      refine List.filter_eq_nil_iff.2 ?_
      intro a ha
      have hc : room.gameState.usedLetters.contains a = true :=
        (contains_eq_true_iff_mem _ _).2 (hall a ha)
      intro habs
      have habs2 : (!(room.gameState.usedLetters.contains a)) = true := habs
      rw [hc] at habs2
      exact absurd habs2 (by decide)
    rw [sticksDraw_eq_empty room r h]

def c7Room : Room :=
  { c3Room with gameState := { c3Room.gameState with usedLetters := GEORGIAN_ALPHABET } }

theorem c7_letter_selection_witness :
    (∀ l ∈ GEORGIAN_ALPHABET, l ∈ c7Room.gameState.usedLetters) ∧
    (sticksDraw c7Room c7Room.hostId 0).gameState.usedLetters
      = [(sticksDraw c7Room c7Room.hostId 0).gameState.currentLetter] :=
  ⟨by decide, (c7_letter_selection c7Room 0).2.2.2.2 (by decide)⟩

/- ===== C8: currentLetter vs phase ===== -/

/-- The inbound events and timer firings that mutate a room's state. -/
inductive GEvent
  | gameStartE (sender : String)
  | sticksDrawE (sender : String) (r : Nat)
  | startRoundT (bonusR : Nat)
  | minTimeT
  | roundStopE (sender : String)
  | stopCountdownT
  | answersSubmitE (sender : String) (answers : List (String × String))
  | answerInvalidateE (sender target category : String)
  | gameNextRoundE (sender : String)
  | endGameCooldownT
  | gameReturnToLobbyE (sender : String)
  | playerReadyE (sender : String) (ready : Bool)
  | settingsUpdateE (sender : String) (patch : SettingsPatch)
  | roomJoinE (pid nick avatarSeed : String)
  | roomLeaveE (sender : String)
  | playerKickE (sender target : String)
  | disconnectE (pid : String)
  | sessionRestoreE (pid : String)
deriving DecidableEq, Repr

/-- Dispatch of one event against a room, as the gateway does. -/
def applyEvent (room : Room) : GEvent → Room
  | .gameStartE s => gameStart room s
  | .sticksDrawE s r => sticksDraw room s r
  | .startRoundT br => startRound room br
  | .minTimeT => minTimeCb room
  | .roundStopE s => (roundStop room s).1
  | .stopCountdownT => endRound room
  | .answersSubmitE s a => answersSubmit room s a
  | .answerInvalidateE s t c => answerInvalidate room s t c
  | .gameNextRoundE s => gameNextRound room s
  | .endGameCooldownT => endGameCooldownCb room
  | .gameReturnToLobbyE s => gameReturnToLobby room s
  | .playerReadyE s b => playerReady room s b
  | .settingsUpdateE s p => settingsUpdate room s p
  | .roomJoinE pid nick av => roomJoin room pid nick av
  | .roomLeaveE s => roomLeave room s
  | .playerKickE s t => playerKick room s t
  | .disconnectE pid => markDisconnected room pid
  | .sessionRestoreE pid => markConnected room pid

def runEvents (room : Room) (es : List GEvent) : Room := es.foldl applyEvent room

def GEvent.isDraw : GEvent → Bool
  | .sticksDrawE _ _ => true
  | _ => false

theorem applyEvent_preserves_letter (room : Room) (e : GEvent) (he : e.isDraw = false) :
    (applyEvent room e).gameState.currentLetter = room.gameState.currentLetter := by
  cases e with
  | gameStartE s =>
    show (gameStart room s).gameState.currentLetter = _
    unfold gameStart
    split
    · rfl
    · split
      · rfl
      · rfl
  | sticksDrawE s r => simp [GEvent.isDraw] at he
  | startRoundT br => rfl
  | minTimeT => rfl
  | roundStopE s =>
    show ((roundStop room s).1).gameState.currentLetter = _
    unfold roundStop
    split
    · rfl
    · split
      · rfl
      · split
        · rfl
        · rfl
  | stopCountdownT => rfl
  | answersSubmitE s a =>
    show (answersSubmit room s a).gameState.currentLetter = _
    unfold answersSubmit
    split
    · rfl
    · dsimp only
      split
      · rfl
      · rfl
  | answerInvalidateE s t c =>
    show (answerInvalidate room s t c).gameState.currentLetter = _
    unfold answerInvalidate
    split
    · rfl
    · split
      · rfl
      · split
        · rfl
        · rfl
  | gameNextRoundE s =>
    show (gameNextRound room s).gameState.currentLetter = _
    unfold gameNextRound
    split
    · rfl
    · split
      · rfl
      · rfl
  | endGameCooldownT => rfl
  | gameReturnToLobbyE s =>
    show (gameReturnToLobby room s).gameState.currentLetter = _
    unfold gameReturnToLobby
    split
    · rfl
    · rfl
  | playerReadyE s b =>
    show (playerReady room s b).gameState.currentLetter = _
    unfold playerReady
    split
    · rfl
    · rfl
  | settingsUpdateE s p =>
    show (settingsUpdate room s p).gameState.currentLetter = _
    unfold settingsUpdate
    split
    · rfl
    · rfl
  | roomJoinE pid nick av =>
    show (roomJoin room pid nick av).gameState.currentLetter = _
    unfold roomJoin
    split
    · rfl
    · split
      · rfl
      · rfl
  | roomLeaveE s =>
    show (roomLeave room s).gameState.currentLetter = _
    unfold roomLeave
    dsimp only
    split
    · split
      · rfl
      · rfl
    · rfl
  | playerKickE s t =>
    show (playerKick room s t).gameState.currentLetter = _
    unfold playerKick
    split
    · rfl
    · split
      · rfl
      · split
        · rfl
        · rfl
  | disconnectE pid =>
    show (markDisconnected room pid).gameState.currentLetter = _
    unfold markDisconnected
    split
    · rfl
    · rfl
  | sessionRestoreE pid =>
    show (markConnected room pid).gameState.currentLetter = _
    unfold markConnected
    split
    · rfl
    · rfl

theorem runEvents_no_draw_letter (es : List GEvent) :
    ∀ room, room.gameState.currentLetter = "" → (∀ e ∈ es, e.isDraw = false) →
    (runEvents room es).gameState.currentLetter = "" := by
  induction es with
  | nil =>
    intro room h0 _
    exact h0
  | cons e es ih =>
    intro room h0 hall
    have h1 : (applyEvent room e).gameState.currentLetter = "" := by
      rw [applyEvent_preserves_letter room e (hall e (List.mem_cons_self e es))]
      exact h0
    exact ih (applyEvent room e) h1 (fun x hx => hall x (List.mem_cons_of_mem e hx))

theorem alphabet_letters_ne_empty : ∀ l ∈ GEORGIAN_ALPHABET, l ≠ "" := by decide

theorem sticksDraw_host_letter_ne_empty (room : Room) (r : Nat) :
    (sticksDraw room room.hostId r).gameState.currentLetter ≠ "" := by
  by_cases h : availableLetters room = []
  · rw [sticksDraw_eq_empty room r h]
    have hidx : r % GEORGIAN_ALPHABET.length < GEORGIAN_ALPHABET.length :=
      Nat.mod_lt _ (by decide)
    exact alphabet_letters_ne_empty _ (getD_mem_of_lt _ _ _ hidx)
  · rw [sticksDraw_eq_nonempty room r h]
    have hlen : 0 < (availableLetters room).length := List.length_pos.2 h
    have hmem : (availableLetters room).getD (r % (availableLetters room).length) ""
        ∈ availableLetters room := getD_mem_of_lt _ _ _ (Nat.mod_lt _ hlen)
    exact alphabet_letters_ne_empty _ (List.mem_filter.1 hmem).1

def c8Room0 : Room := createRoomObj "AAAAA" "h1" "ანა" "s1"

/-- C8 counterexample: two events after room creation — `game:start` then
`sticks:draw` — leave the room in the `sticks` phase with `currentLetter`
already non-empty, refuting the claimed "iff" (the letter is set while the
phase is `sticks`, before `startRound` flips it to `playing`). -/
theorem c8_counterexample :
    c8Room0.gameState.currentLetter = "" ∧
    (runEvents c8Room0 [.gameStartE "h1", .sticksDrawE "h1" 0]).gameState.phase
      = Phase.sticks ∧
    (runEvents c8Room0 [.gameStartE "h1", .sticksDrawE "h1" 0]).gameState.currentLetter
      = "ა" := by
  decide

/-- C8 amended: `currentLetter` is empty at room creation, stays empty along
any event trace containing no `sticks:draw`, a host `sticks:draw` always
makes it non-empty, and no other event ever changes it — so it is non-empty
exactly from the first effective draw onward, which includes states in the
`sticks`, `ended` and post-reset `lobby` phases. -/
theorem c8_amended_letter :
    (∀ code hostId nick avatarSeed,
      (createRoomObj code hostId nick avatarSeed).gameState.currentLetter = "") ∧
    (∀ room e, e.isDraw = false →
      (applyEvent room e).gameState.currentLetter = room.gameState.currentLetter) ∧
    (∀ room r, (sticksDraw room room.hostId r).gameState.currentLetter ≠ "") ∧
    (∀ room es, room.gameState.currentLetter = "" → (∀ e ∈ es, e.isDraw = false) →
      (runEvents room es).gameState.currentLetter = "") :=
  ⟨fun _ _ _ _ => rfl,
   fun room e he => applyEvent_preserves_letter room e he,
   fun room r => sticksDraw_host_letter_ne_empty room r,
   fun room es h0 hall => runEvents_no_draw_letter es room h0 hall⟩

theorem c8_amended_letter_witness :
    (GEvent.playerReadyE "h1" false).isDraw = false ∧
    (applyEvent c8Room0 (GEvent.playerReadyE "h1" false)).gameState.currentLetter
      = c8Room0.gameState.currentLetter :=
  ⟨by decide, c8_amended_letter.2.1 c8Room0 (GEvent.playerReadyE "h1" false) (by decide)⟩
